import Mathlib

/-!
# xcalicon: a verification development

A shallow embedding of `xcalicon.c` (one translation unit): the redraw routine
`redraw_icon`, the event loop of `main`, and the signal
handler `killer`.

Conventions of the embedding.

* C `int` values are `Int`, C `unsigned int` values are `Nat`; `/` and `%`
  of C are `Int.tdiv` and `Int.tmod` (truncation toward zero).  The sizes the
  program handles are pixmap and window sizes; the arithmetic is carried out
  on unbounded integers.
* The calls the program makes on the display are recorded, in program order,
  as a list of `Request`s.  The effect of the requests on the resources the
  program owns (the icon pixmap, the clip of the graphics context, the two
  name properties and the hints property of the window) is given by
  `Server.exec`, a model of the core X protocol semantics of those requests.
* What the program reads from its environment in one call of `redraw_icon`
  (the broken-down local time, the result of `XStringListToTextProperty`,
  the window size reported by `XGetWindowAttributes`) is an `Env`.
* The two XPM images `icons/calendar.xpm` and `icons/digits.xpm` are not part
  of the translation unit; they are a parameter, `Assets`.
-/

namespace Xcalicon

/-! ## Data model -/

/-- The fields of `struct tm` that the program reads. -/
structure Tm where
  tm_min : Int
  tm_hour : Int
  tm_mday : Int
  tm_wday : Int
  deriving DecidableEq, Repr

/-- A broken-down time as `localtime` produces it. -/
def Tm.valid (t : Tm) : Prop :=
  0 ≤ t.tm_min ∧ t.tm_min ≤ 59 ∧ 0 ≤ t.tm_hour ∧ t.tm_hour ≤ 23 ∧
  1 ≤ t.tm_mday ∧ t.tm_mday ≤ 31 ∧ 0 ≤ t.tm_wday ∧ t.tm_wday ≤ 6

instance (t : Tm) : Decidable t.valid := by
  unfold Tm.valid; infer_instance

/-- The X resources the program names: the members of `xinfo` that are XIDs,
and `None` (the zero XID). -/
inductive XID where
  | None
  | win
  | calendar_pm
  | calendar_pm_mask
  | digits_pm
  | digits_pm_mask
  | icon_pm
  deriving DecidableEq, Repr

/-- The members of `XWMHints` the program writes. -/
structure XWMHints where
  flags : Nat
  initial_state : Int
  icon_pixmap : XID
  icon_mask : XID
  deriving DecidableEq, Repr

/-- Flag bits of `XWMHints.flags` from `X11/Xutil.h`. -/
def StateHint : Nat := 2
def IconPixmapHint : Nat := 4
def IconMaskHint : Nat := 32

/-- The `width` and `height` members of `XpmAttributes`, both `unsigned int`. -/
structure XpmAttributes where
  width : Nat
  height : Nat
  deriving DecidableEq, Repr

/-- The two images compiled into the program, as `XpmCreatePixmapFromData`
hands them over: sizes, pixel values, and the shape mask of the calendar
(`none` when the image has no transparent pixel, in which case the mask XID
is `None`). -/
structure Assets where
  calendar_pm_attrs : XpmAttributes
  digits_pm_attrs : XpmAttributes
  calendar_px : Int → Int → Nat
  digits_px : Int → Int → Nat
  calendar_mask : Option (Int → Int → Bool)

/-- The calls on the display made by `redraw_icon`, with the arguments that
vary.  `dpy`, the window and the graphics context are always `xinfo.dpy`,
`xinfo.win` and `xinfo.gc`. -/
inductive Request where
  | XSetWMIconName (title : List Char)
  | XStoreName (title : List Char)
  | XCopyArea (src dest : XID) (src_x src_y width height dest_x dest_y : Int)
  | XSetWMHints (hints : XWMHints)
  | XGetWindowAttributes
  | XClearWindow
  | XSetClipMask (pixmap : XID)
  | XSetClipOrigin (x y : Int)
  | XSetFunction_GXcopy
  deriving DecidableEq, Repr

/-- The process-wide variables `redraw_icon` reads and writes: `last_day`,
`last_min` and `xinfo.hints`. -/
structure Globals where
  last_day : Int
  last_min : Int
  hints : XWMHints
  deriving DecidableEq, Repr

/-- The values at program start: `last_day = 0`, `last_min = -1`,
`xinfo = { 0 }`. -/
def Globals.init : Globals :=
  { last_day := 0, last_min := -1,
    hints := { flags := 0, initial_state := 0, icon_pixmap := XID.None, icon_mask := XID.None } }

/-- What one call of `redraw_icon` reads from outside the program. -/
structure Env where
  /-- The result of `localtime(time())`. -/
  tm : Tm
  /-- The status returned by `XStringListToTextProperty` (zero: failure). -/
  text_prop_rc : Int
  /-- The members `width` and `height` of the reply to `XGetWindowAttributes`. -/
  xgwa_width : Int
  xgwa_height : Int
  deriving DecidableEq, Repr

/-! ## `strftime(title, sizeof(title), "%a %H:%M", tm)` -/

/-- Abbreviated weekday name of the C locale (`%a`); the program never calls
`setlocale`. -/
def wday_abbrev (wday : Int) : List Char :=
  if wday = 0 then ['S', 'u', 'n']
  else if wday = 1 then ['M', 'o', 'n']
  else if wday = 2 then ['T', 'u', 'e']
  else if wday = 3 then ['W', 'e', 'd']
  else if wday = 4 then ['T', 'h', 'u']
  else if wday = 5 then ['F', 'r', 'i']
  else if wday = 6 then ['S', 'a', 't']
  else ['?']

/-- One decimal digit as a character. -/
def digit_char (n : Int) : Char :=
  if n = 0 then '0'
  else if n = 1 then '1'
  else if n = 2 then '2'
  else if n = 3 then '3'
  else if n = 4 then '4'
  else if n = 5 then '5'
  else if n = 6 then '6'
  else if n = 7 then '7'
  else if n = 8 then '8'
  else '9'

/-- A number in `0..99` as two decimal digits (`%H`, `%M`). -/
def two_digits (n : Int) : List Char :=
  [digit_char (Int.tdiv n 10), digit_char (Int.tmod n 10)]

/-- The title the program formats: `"%a %H:%M"`.  It has at most nine
characters and fits the 50-byte buffer. -/
def strftime_title (tm : Tm) : List Char :=
  wday_abbrev tm.tm_wday ++ [' '] ++ two_digits tm.tm_hour ++ [':'] ++ two_digits tm.tm_min

/-! ## `redraw_icon` -/

/-- Lines 230-243: the title branch.  When the minute differs from `last_min`
the cache is updated and both names are set; a zero status of
`XStringListToTextProperty` ends the process through `errx(1, ...)`. -/
def update_title (e : Env) (g : Globals) : Except Int (Globals × List Request) :=
  if e.tm.tm_min ≠ g.last_min then
    let g1 := { g with last_min := e.tm.tm_min }
    let title := strftime_title e.tm
    if e.text_prop_rc = 0 then
      Except.error 1
    else
      Except.ok (g1, [Request.XSetWMIconName title, Request.XStoreName title])
  else
    Except.ok (g, [])

/-- Line 260: `dwidth = (xinfo.digits_pm_attrs.width / 10)`. -/
def dwidth (a : Assets) : Int := ((a.digits_pm_attrs.width / 10 : Nat) : Int)

/-- Lines 261-283: the copies of the digit glyphs into the icon pixmap. -/
def glyph_copies (a : Assets) (tm_mday : Int) : List Request :=
  if tm_mday ≥ 10 then
    [ Request.XCopyArea XID.digits_pm XID.icon_pm
        (dwidth a * Int.tdiv tm_mday 10) 0 (dwidth a) a.digits_pm_attrs.height 19 28,
      Request.XCopyArea XID.digits_pm XID.icon_pm
        (dwidth a * Int.tmod tm_mday 10) 0 (dwidth a) a.digits_pm_attrs.height 33 28 ]
  else
    [ Request.XCopyArea XID.digits_pm XID.icon_pm
        (dwidth a * tm_mday) 0 (dwidth a) a.digits_pm_attrs.height 26 28 ]

/-- Lines 286-288: the hints record after the icon has been rebuilt. -/
def icon_hints (h : XWMHints) : XWMHints :=
  { h with icon_pixmap := XID.icon_pm, icon_mask := XID.calendar_pm_mask,
           flags := IconPixmapHint ||| IconMaskHint }

/-- Lines 248-292: the body of `if (tm->tm_mday != last_day)`. -/
def rebuild_icon (a : Assets) (tm_mday : Int) (g : Globals) : Globals × List Request :=
  let g1 := { g with last_day := tm_mday }
  let g2 := { g1 with hints := icon_hints g1.hints }
  (g2,
   [Request.XCopyArea XID.calendar_pm XID.icon_pm 0 0
      a.calendar_pm_attrs.width a.calendar_pm_attrs.height 0 0]
   ++ glyph_copies a tm_mday
   ++ [Request.XSetWMHints g2.hints])

/-- Lines 300-301: `xo` and `yo`. -/
def center_offset (window_size : Int) (image_size : Nat) : Int :=
  Int.tdiv window_size 2 - ((image_size / 2 : Nat) : Int)

/-- Lines 294-313: the body of `if (update_win)`. -/
def draw_window (a : Assets) (e : Env) : List Request :=
  let xo := center_offset e.xgwa_width a.calendar_pm_attrs.width
  let yo := center_offset e.xgwa_height a.calendar_pm_attrs.height
  [ Request.XGetWindowAttributes,
    Request.XClearWindow,
    Request.XSetClipMask XID.calendar_pm_mask,
    Request.XSetClipOrigin xo yo,
    Request.XSetFunction_GXcopy,
    Request.XCopyArea XID.icon_pm XID.win 0 0
      a.calendar_pm_attrs.width a.calendar_pm_attrs.height xo yo,
    Request.XSetClipMask XID.calendar_pm_mask,
    Request.XSetClipOrigin 0 0 ]

/-- The function `redraw_icon(update_win)`, lines 216-314.  The result is
`Except.error 1` when the process ends in `errx(1, ...)`, and otherwise the
globals on return with the requests issued, in order. -/
def redraw_icon (a : Assets) (update_win : Int) (e : Env) (g : Globals) :
    Except Int (Globals × List Request) :=
  match update_title e g with
  | Except.error status => Except.error status
  | Except.ok (g1, r1) =>
    if e.tm.tm_mday = g1.last_day ∧ update_win = 0 then
      Except.ok (g1, r1)
    else
      let rebuilt : Globals × List Request × Int :=
        if e.tm.tm_mday ≠ g1.last_day then
          ((rebuild_icon a e.tm.tm_mday g1).1, (rebuild_icon a e.tm.tm_mday g1).2, 1)
        else
          (g1, [], update_win)
      let r3 := if rebuilt.2.2 ≠ 0 then draw_window a e else []
      Except.ok (rebuilt.1, r1 ++ rebuilt.2.1 ++ r3)

/-! ## The display: what the requests do

Only the resources the program's requests are aimed at are modelled: the
pixels of `xinfo.icon_pm`, the clip of `xinfo.gc`, and the three window
properties.  The pixels of the window itself are not tracked. -/

/-- The display resources the program owns. -/
structure Server where
  /-- Pixel values of `xinfo.icon_pm`, a pixmap of the size of the calendar. -/
  icon_pm : Int → Int → Nat
  /-- The clip-mask and clip origin of `xinfo.gc`. -/
  gc_clip_mask : XID
  gc_clip_x : Int
  gc_clip_y : Int
  /-- The properties `WM_NAME`, `WM_ICON_NAME` and `WM_HINTS` of the window. -/
  wm_name : Option (List Char)
  wm_icon_name : Option (List Char)
  wm_hints : Option XWMHints

/-- The display when `main` first calls `redraw_icon`: the pixmap just created
has undefined contents (`icon0`), the graphics context just created has no
clip-mask, and no property has been set. -/
def Server.init (icon0 : Int → Int → Nat) : Server :=
  { icon_pm := icon0, gc_clip_mask := XID.None, gc_clip_x := 0, gc_clip_y := 0,
    wm_name := none, wm_icon_name := none, wm_hints := none }

/-- Whether `(x, y)` is a pixel of a drawable of the given size. -/
def in_bounds (attrs : XpmAttributes) (x y : Int) : Prop :=
  0 ≤ x ∧ x < attrs.width ∧ 0 ≤ y ∧ y < attrs.height

instance (attrs : XpmAttributes) (x y : Int) : Decidable (in_bounds attrs x y) := by
  unfold in_bounds; infer_instance

/-- The shape of the calendar at a pixel of the mask bitmap: the bit of
`xinfo.calendar_pm_mask`, every pixel when that XID is `None`. -/
def mask_bit (a : Assets) (x y : Int) : Bool :=
  match a.calendar_mask with
  | none => true
  | some m => m x y

/-- Whether the clip of the graphics context lets a request draw the pixel
`(x, y)` of its destination.  The only clip-mask the program ever sets is
`xinfo.calendar_pm_mask`; the clip origin is relative to the destination, and
nothing is drawn outside the mask bitmap. -/
def clip_allows (a : Assets) (sv : Server) (x y : Int) : Bool :=
  if sv.gc_clip_mask = XID.calendar_pm_mask then
    match a.calendar_mask with
    | none => true
    | some m =>
      decide (in_bounds a.calendar_pm_attrs (x - sv.gc_clip_x) (y - sv.gc_clip_y))
        && m (x - sv.gc_clip_x) (y - sv.gc_clip_y)
  else
    true

/-- The pixel of a source drawable, `none` outside of it (and for XIDs that
are never a source). -/
def source_px (a : Assets) (sv : Server) (src : XID) (x y : Int) : Option Nat :=
  match src with
  | XID.calendar_pm => if in_bounds a.calendar_pm_attrs x y then some (a.calendar_px x y) else none
  | XID.digits_pm => if in_bounds a.digits_pm_attrs x y then some (a.digits_px x y) else none
  | XID.icon_pm => if in_bounds a.calendar_pm_attrs x y then some (sv.icon_pm x y) else none
  | _ => none

/-- The pixels of the icon pixmap after an `XCopyArea` into it with function
`GXcopy`: a pixel of the destination rectangle that lies in the pixmap, that
the clip allows and whose source pixel exists takes the source pixel; every
other pixel is kept. -/
def copy_area (a : Assets) (sv : Server) (src : XID)
    (src_x src_y width height dest_x dest_y : Int) : Int → Int → Nat :=
  fun x y =>
    if dest_x ≤ x ∧ x < dest_x + width ∧ dest_y ≤ y ∧ y < dest_y + height
        ∧ in_bounds a.calendar_pm_attrs x y ∧ clip_allows a sv x y = true then
      match source_px a sv src (x - dest_x + src_x) (y - dest_y + src_y) with
      | some p => p
      | none => sv.icon_pm x y
    else
      sv.icon_pm x y

/-- The effect of one request on the display resources. -/
def Server.exec (a : Assets) (sv : Server) : Request → Server
  | Request.XSetWMIconName title => { sv with wm_icon_name := some title }
  | Request.XStoreName title => { sv with wm_name := some title }
  | Request.XCopyArea src dest src_x src_y width height dest_x dest_y =>
    if dest = XID.icon_pm then
      { sv with icon_pm := copy_area a sv src src_x src_y width height dest_x dest_y }
    else
      sv
  | Request.XSetWMHints hints => { sv with wm_hints := some hints }
  | Request.XGetWindowAttributes => sv
  | Request.XClearWindow => sv
  | Request.XSetClipMask pixmap => { sv with gc_clip_mask := pixmap }
  | Request.XSetClipOrigin x y => { sv with gc_clip_x := x, gc_clip_y := y }
  | Request.XSetFunction_GXcopy => sv

/-- The effect of a list of requests, in order. -/
def Server.execs (a : Assets) (sv : Server) (reqs : List Request) : Server :=
  reqs.foldl (Server.exec a) sv

/-- One call `redraw_icon(update_win)` in the environment `e`, from the
globals and display of `st`. -/
def call (a : Assets) (st : Globals × Server) (c : Int × Env) :
    Except Int (Globals × Server) :=
  match redraw_icon a c.1 c.2 st.1 with
  | Except.error status => Except.error status
  | Except.ok (g, reqs) => Except.ok (g, Server.execs a st.2 reqs)

/-- A finite sequence of calls of `redraw_icon`. -/
def calls (a : Assets) (st : Globals × Server) : List (Int × Env) →
    Except Int (Globals × Server)
  | [] => Except.ok st
  | c :: cs =>
    match call a st c with
    | Except.error status => Except.error status
    | Except.ok st1 => calls a st1 cs

/-! ## The event loop of `main` (lines 165-185) -/

/-- What one iteration of the loop reads from outside the program.  A value
is consulted only on the path that reads it. -/
structure Iteration where
  /-- The result of `XPending` at line 166. -/
  pending_before : Int
  /-- The member `pfd[1].revents` after `poll` at line 167. -/
  revents : Int
  /-- The result of `XPending` at line 172. -/
  pending_after : Int
  /-- The member `event.type` after `XNextEvent` at line 178. -/
  event_type : Int
  deriving DecidableEq, Repr

/-- The event code `Expose` of `X11/X.h`. -/
def Expose : Int := 12

/-- What an iteration does, as far as the loop itself is concerned. -/
inductive Action where
  | poll
  | redraw_icon (update_win : Int)
  | XNextEvent
  deriving DecidableEq, Repr

/-- How an iteration ends. -/
inductive Control where
  | loop_break
  | loop_continue
  deriving DecidableEq, Repr

/-- The body of `for (;;)`, lines 166-184. -/
def loop_body (it : Iteration) : List Action × Control :=
  let after_event : List Action × Control :=
    ([Action.XNextEvent] ++ (if it.event_type = Expose then [Action.redraw_icon 1] else []),
     Control.loop_continue)
  if it.pending_before = 0 then
    if it.revents ≠ 0 then
      ([Action.poll], Control.loop_break)
    else if it.pending_after = 0 then
      ([Action.poll, Action.redraw_icon 0], Control.loop_continue)
    else
      ([Action.poll] ++ after_event.1, after_event.2)
  else
    after_event

/-- The loop `for (;;)` and what follows it, over the iterations the
environment presents: what the loop did, in order, and the value `main`
returned: `some 0` when the loop was left (lines 187-195 free the resources
and `main` returns 0; the iterations after the one that left are not run),
`none` when the loop is still running after the last iteration given. -/
def main_loop : List Iteration → List Action × Option Int
  | [] => ([], none)
  | it :: rest =>
    match (loop_body it).2 with
    | Control.loop_break => ((loop_body it).1, some 0)
    | Control.loop_continue => ((loop_body it).1 ++ (main_loop rest).1, (main_loop rest).2)

/-! ## `killer` (lines 198-206) -/

/-- How the signal handler ends. -/
inductive KillerResult where
  | returned
  | exited (warning : String) (status : Int)
  deriving DecidableEq, Repr

/-- The handler, given the result of `write(exit_msg[1], &exit_msg, 1)`. -/
def killer (write_result : Int) : KillerResult :=
  if write_result ≠ 0 then
    KillerResult.returned
  else
    KillerResult.exited "failed to exit cleanly" 1

/-! ## The icon the specification describes -/

/-- Glyph `n` of the digit strip: the strip holds ten glyphs side by side,
each a tenth of the strip wide. -/
def glyph (a : Assets) (n : Int) : Int → Int → Nat :=
  fun x y => a.digits_px (dwidth a * n + x) y

/-- An image with a glyph laid over it at `(ox, oy)`. -/
def overlay (a : Assets) (image : Int → Int → Nat) (g : Int → Int → Nat) (ox oy : Int) :
    Int → Int → Nat :=
  fun x y =>
    if ox ≤ x ∧ x < ox + dwidth a ∧ oy ≤ y ∧ y < oy + a.digits_pm_attrs.height then
      g (x - ox) (y - oy)
    else
      image x y

/-- The calendar background overlaid with the decimal digits of the day `d`:
tens at `(19, 28)` and ones at `(33, 28)` for a two-digit day, the single
digit at `(26, 28)` otherwise. -/
def calendar_with_digits (a : Assets) (d : Int) : Int → Int → Nat :=
  if d ≥ 10 then
    overlay a (overlay a a.calendar_px (glyph a (d / 10)) 19 28) (glyph a (d % 10)) 33 28
  else
    overlay a a.calendar_px (glyph a d) 26 28

/-- The pixels some glyph copy can reach: the union of the three glyph
destination rectangles. -/
def in_glyph_area (a : Assets) (x y : Int) : Prop :=
  ((19 ≤ x ∧ x < 19 + dwidth a) ∨ (26 ≤ x ∧ x < 26 + dwidth a) ∨ (33 ≤ x ∧ x < 33 + dwidth a))
    ∧ 28 ≤ y ∧ y < 28 + a.digits_pm_attrs.height

instance (a : Assets) (x y : Int) : Decidable (in_glyph_area a x y) := by
  unfold in_glyph_area; infer_instance

/-- The time whose rendering the two names show after a sequence of calls:
the time of the latest call whose minute differs from the minute of the call
before it (the first call counts); `shown` is the time shown so far and
`prev_min` the minute of the call before. -/
def title_time (shown : Option Tm) (prev_min : Int) : List (Int × Env) → Option Tm
  | [] => shown
  | c :: cs =>
    if c.2.tm.tm_min ≠ prev_min then title_time (some c.2.tm) c.2.tm.tm_min cs
    else title_time shown c.2.tm.tm_min cs

/-! ## Reading a list of requests -/

/-- The copies into the icon pixmap among the requests, in order. -/
def icon_copies (reqs : List Request) : List Request :=
  reqs.filter (fun r =>
    match r with
    | Request.XCopyArea _ dest _ _ _ _ _ _ => decide (dest = XID.icon_pm)
    | _ => false)

/-- The copies out of the digit strip among the requests, in order. -/
def glyph_requests (reqs : List Request) : List Request :=
  reqs.filter (fun r =>
    match r with
    | Request.XCopyArea src _ _ _ _ _ _ _ => decide (src = XID.digits_pm)
    | _ => false)

/-- The requests that draw on the window (the clear and the copies into it),
in order. -/
def window_draws (reqs : List Request) : List Request :=
  reqs.filter (fun r =>
    match r with
    | Request.XClearWindow => true
    | Request.XCopyArea _ dest _ _ _ _ _ _ => decide (dest = XID.win)
    | _ => false)

/-- The updates of the hints property among the requests, in order. -/
def hints_updates (reqs : List Request) : List Request :=
  reqs.filter (fun r =>
    match r with
    | Request.XSetWMHints _ => true
    | _ => false)

/-- The requests of the title branch. -/
def title_requests (e : Env) (g : Globals) : List Request :=
  if e.tm.tm_min ≠ g.last_min then
    [Request.XSetWMIconName (strftime_title e.tm), Request.XStoreName (strftime_title e.tm)]
  else
    []

/-! ## Sample data -/

/-- A 64 x 64 calendar whose shape leaves out the column `x = 30` below
`y = 28`, and a strip of ten glyphs of 14 x 20 pixels, glyph `n` painted with
the value `n + 1`. -/
def sample_assets : Assets :=
  { calendar_pm_attrs := { width := 64, height := 64 },
    digits_pm_attrs := { width := 140, height := 20 },
    calendar_px := fun _ _ => 0,
    digits_px := fun x _ => (x / 14).toNat + 1,
    calendar_mask := some (fun x y => decide (¬ (x = 30 ∧ 28 ≤ y))) }

/-- The same images with a shape that covers the whole calendar. -/
def sample_assets_full : Assets :=
  { sample_assets with calendar_mask := some (fun _ _ => true) }

/-- A call environment at the given time, in a 200 x 100 window. -/
def sample_env (wday hour min mday : Int) : Env :=
  { tm := { tm_min := min, tm_hour := hour, tm_mday := mday, tm_wday := wday },
    text_prop_rc := 1, xgwa_width := 200, xgwa_height := 100 }

/-- The minute of the last call of a sequence, `m` for the empty sequence. -/
def last_minute (m : Int) : List (Int × Env) → Int
  | [] => m
  | c :: cs => last_minute c.2.tm.tm_min cs

/-- The two names show the rendering of `shown` (nothing before the first
call), and `last_min` is the minute of `shown` (`-1` before the first call). -/
def title_inv (g : Globals) (sv : Server) (shown : Option Tm) : Prop :=
  sv.wm_name = shown.map strftime_title ∧ sv.wm_icon_name = shown.map strftime_title ∧
  (∀ t, shown = some t → t.tm_min = g.last_min) ∧ (shown = none → g.last_min = -1)

/-- The shape of the calendar covers every pixel of the icon a glyph copy can
reach.  This is a property of `icons/calendar.xpm`; it holds in particular
when the image has no transparent pixel. -/
def mask_covers_glyphs (a : Assets) : Prop :=
  ∀ x y : Int, in_bounds a.calendar_pm_attrs x y → in_glyph_area a x y → mask_bit a x y = true

/-- The icon pixmap agrees with the calendar overlaid with the digits of `d`
at every pixel inside the shape of the calendar and at every pixel no glyph
copy can reach. -/
def icon_shows (a : Assets) (sv : Server) (d : Int) : Prop :=
  ∀ x y : Int, in_bounds a.calendar_pm_attrs x y →
    (mask_bit a x y = true ∨ ¬ in_glyph_area a x y) →
      sv.icon_pm x y = calendar_with_digits a d x y

/-- What holds between two calls: either no call has been made yet (the
graphics context has no clip-mask, `last_day = 0`), or the icon of `last_day`
has been built and installed and the graphics context is clipped to the shape
of the calendar at the origin. -/
def icon_inv (a : Assets) (g : Globals) (sv : Server) : Prop :=
  (g.last_day = 0 ∧ sv.gc_clip_mask = XID.None) ∨
  (1 ≤ g.last_day ∧ g.last_day ≤ 31 ∧
    sv.gc_clip_mask = XID.calendar_pm_mask ∧ sv.gc_clip_x = 0 ∧ sv.gc_clip_y = 0 ∧
    sv.wm_hints = some g.hints ∧ g.hints.icon_pixmap = XID.icon_pm ∧
    g.hints.icon_mask = XID.calendar_pm_mask ∧ g.hints.flags = 36 ∧
    icon_shows a sv g.last_day)

/-! ## Lemmas on `redraw_icon` -/

theorem update_title_eq (e : Env) (g : Globals)
    (h : e.text_prop_rc ≠ 0 ∨ e.tm.tm_min = g.last_min) :
    update_title e g = Except.ok ({ g with last_min := e.tm.tm_min }, title_requests e g) := by
  unfold update_title title_requests
  by_cases hm : e.tm.tm_min = g.last_min
  · simp [hm]
  · have hrc : e.text_prop_rc ≠ 0 := by
      rcases h with h | h
      · exact h
      · exact absurd h hm
    simp [hm, hrc]

theorem redraw_icon_same_day_quiet (a : Assets) (e : Env) (g : Globals)
    (h : e.text_prop_rc ≠ 0 ∨ e.tm.tm_min = g.last_min) (hd : e.tm.tm_mday = g.last_day) :
    redraw_icon a 0 e g
      = Except.ok ({ g with last_min := e.tm.tm_min }, title_requests e g) := by
  unfold redraw_icon
  rw [update_title_eq e g h]
  simp [hd]

theorem redraw_icon_same_day_exposed (a : Assets) (u : Int) (e : Env) (g : Globals)
    (h : e.text_prop_rc ≠ 0 ∨ e.tm.tm_min = g.last_min) (hd : e.tm.tm_mday = g.last_day)
    (hu : u ≠ 0) :
    redraw_icon a u e g
      = Except.ok ({ g with last_min := e.tm.tm_min }, title_requests e g ++ draw_window a e) := by
  unfold redraw_icon
  rw [update_title_eq e g h]
  simp [hd, hu]

theorem redraw_icon_new_day (a : Assets) (u : Int) (e : Env) (g : Globals)
    (h : e.text_prop_rc ≠ 0 ∨ e.tm.tm_min = g.last_min) (hd : e.tm.tm_mday ≠ g.last_day) :
    redraw_icon a u e g
      = Except.ok
          ({ last_day := e.tm.tm_mday, last_min := e.tm.tm_min, hints := icon_hints g.hints },
           title_requests e g
             ++ ([Request.XCopyArea XID.calendar_pm XID.icon_pm 0 0
                  a.calendar_pm_attrs.width a.calendar_pm_attrs.height 0 0]
                ++ glyph_copies a e.tm.tm_mday
                ++ [Request.XSetWMHints (icon_hints g.hints)])
             ++ draw_window a e) := by
  unfold redraw_icon
  rw [update_title_eq e g h]
  simp [hd, rebuild_icon]

theorem glyph_copies_two (a : Assets) (d : Int) (h : 10 ≤ d) :
    glyph_copies a d =
      [ Request.XCopyArea XID.digits_pm XID.icon_pm
          (dwidth a * Int.tdiv d 10) 0 (dwidth a) a.digits_pm_attrs.height 19 28,
        Request.XCopyArea XID.digits_pm XID.icon_pm
          (dwidth a * Int.tmod d 10) 0 (dwidth a) a.digits_pm_attrs.height 33 28 ] := by
  unfold glyph_copies
  simp [h]

theorem glyph_copies_one (a : Assets) (d : Int) (h : d < 10) :
    glyph_copies a d =
      [ Request.XCopyArea XID.digits_pm XID.icon_pm
          (dwidth a * d) 0 (dwidth a) a.digits_pm_attrs.height 26 28 ] := by
  unfold glyph_copies
  have : ¬ d ≥ 10 := by omega
  simp [this]

theorem icon_copies_append (r1 r2 : List Request) :
    icon_copies (r1 ++ r2) = icon_copies r1 ++ icon_copies r2 := by
  simp [icon_copies]

theorem glyph_requests_append (r1 r2 : List Request) :
    glyph_requests (r1 ++ r2) = glyph_requests r1 ++ glyph_requests r2 := by
  simp [glyph_requests]

theorem window_draws_append (r1 r2 : List Request) :
    window_draws (r1 ++ r2) = window_draws r1 ++ window_draws r2 := by
  simp [window_draws]

theorem hints_updates_append (r1 r2 : List Request) :
    hints_updates (r1 ++ r2) = hints_updates r1 ++ hints_updates r2 := by
  simp [hints_updates]

theorem icon_copies_title (e : Env) (g : Globals) : icon_copies (title_requests e g) = [] := by
  unfold title_requests icon_copies
  split <;> simp

theorem glyph_requests_title (e : Env) (g : Globals) :
    glyph_requests (title_requests e g) = [] := by
  unfold title_requests glyph_requests
  split <;> simp

theorem window_draws_title (e : Env) (g : Globals) :
    window_draws (title_requests e g) = [] := by
  unfold title_requests window_draws
  split <;> simp

theorem hints_updates_title (e : Env) (g : Globals) :
    hints_updates (title_requests e g) = [] := by
  unfold title_requests hints_updates
  split <;> simp

theorem icon_copies_draw_window (a : Assets) (e : Env) : icon_copies (draw_window a e) = [] := by
  simp [draw_window, icon_copies]

theorem glyph_requests_draw_window (a : Assets) (e : Env) :
    glyph_requests (draw_window a e) = [] := by
  simp [draw_window, glyph_requests]

theorem hints_updates_draw_window (a : Assets) (e : Env) :
    hints_updates (draw_window a e) = [] := by
  simp [draw_window, hints_updates]

theorem window_draws_draw_window (a : Assets) (e : Env) :
    window_draws (draw_window a e)
      = [ Request.XClearWindow,
          Request.XCopyArea XID.icon_pm XID.win 0 0
            a.calendar_pm_attrs.width a.calendar_pm_attrs.height
            (center_offset e.xgwa_width a.calendar_pm_attrs.width)
            (center_offset e.xgwa_height a.calendar_pm_attrs.height) ] := by
  simp [draw_window, window_draws]

theorem icon_copies_glyph_copies (a : Assets) (d : Int) :
    icon_copies (glyph_copies a d) = glyph_copies a d := by
  unfold glyph_copies icon_copies
  split <;> simp

theorem glyph_requests_glyph_copies (a : Assets) (d : Int) :
    glyph_requests (glyph_copies a d) = glyph_copies a d := by
  unfold glyph_copies glyph_requests
  split <;> simp

theorem window_draws_glyph_copies (a : Assets) (d : Int) :
    window_draws (glyph_copies a d) = [] := by
  unfold glyph_copies window_draws
  split <;> simp

theorem tdiv_tmod_day (d : Int) (h : 0 ≤ d) : Int.tdiv d 10 = d / 10 ∧ Int.tmod d 10 = d % 10 := by
  constructor
  · exact Int.tdiv_eq_ediv h (by decide)
  · exact Int.tmod_eq_emod h (by decide)

/-! ## The claims on one call of `redraw_icon` -/

/-- C1: for a day of month `d` that differs from `last_day` (in particular
for `d` in `1..31`), `redraw_icon` returns, and its copies into the icon pixmap are, in order: one
copy of the whole calendar from `(0, 0)` to `(0, 0)`; then for `d >= 10` two
glyph copies, to `(19, 28)` and to `(33, 28)`, and for `d < 10` one glyph
copy, to `(26, 28)`.  Each glyph copy is `digits_width / 10` wide,
`digits_height` high and has source `y = 0`. -/
theorem redraw_icon_copy_order (a : Assets) (u : Int) (e : Env) (g : Globals)
    (hrc : e.text_prop_rc ≠ 0) (hne : e.tm.tm_mday ≠ g.last_day) :
    ∃ g1 reqs, redraw_icon a u e g = Except.ok (g1, reqs) ∧
      (10 ≤ e.tm.tm_mday → ∃ sx1 sx2 : Int,
        icon_copies reqs =
          [ Request.XCopyArea XID.calendar_pm XID.icon_pm 0 0
              a.calendar_pm_attrs.width a.calendar_pm_attrs.height 0 0,
            Request.XCopyArea XID.digits_pm XID.icon_pm sx1 0
              ((a.digits_pm_attrs.width / 10 : Nat) : Int) a.digits_pm_attrs.height 19 28,
            Request.XCopyArea XID.digits_pm XID.icon_pm sx2 0
              ((a.digits_pm_attrs.width / 10 : Nat) : Int) a.digits_pm_attrs.height 33 28 ]) ∧
      (e.tm.tm_mday < 10 → ∃ sx : Int,
        icon_copies reqs =
          [ Request.XCopyArea XID.calendar_pm XID.icon_pm 0 0
              a.calendar_pm_attrs.width a.calendar_pm_attrs.height 0 0,
            Request.XCopyArea XID.digits_pm XID.icon_pm sx 0
              ((a.digits_pm_attrs.width / 10 : Nat) : Int) a.digits_pm_attrs.height 26 28 ]) := by
  refine ⟨_, _, redraw_icon_new_day a u e g (Or.inl hrc) hne, ?_, ?_⟩
  · intro h10
    refine ⟨dwidth a * Int.tdiv e.tm.tm_mday 10, dwidth a * Int.tmod e.tm.tm_mday 10, ?_⟩
    rw [icon_copies_append, icon_copies_append, icon_copies_append, icon_copies_append,
      icon_copies_title, icon_copies_draw_window, icon_copies_glyph_copies,
      glyph_copies_two a _ h10]
    simp [icon_copies, dwidth]
  · intro h10
    refine ⟨dwidth a * e.tm.tm_mday, ?_⟩
    rw [icon_copies_append, icon_copies_append, icon_copies_append, icon_copies_append,
      icon_copies_title, icon_copies_draw_window, icon_copies_glyph_copies,
      glyph_copies_one a _ h10]
    simp [icon_copies, dwidth]

theorem redraw_icon_copy_order_witness :
    ∃ g1 reqs, redraw_icon sample_assets 0 (sample_env 1 10 5 17) Globals.init
        = Except.ok (g1, reqs) ∧
      icon_copies reqs =
        [ Request.XCopyArea XID.calendar_pm XID.icon_pm 0 0 64 64 0 0,
          Request.XCopyArea XID.digits_pm XID.icon_pm 14 0 14 20 19 28,
          Request.XCopyArea XID.digits_pm XID.icon_pm 98 0 14 20 33 28 ] := by
  obtain ⟨g1, reqs, h, _, _⟩ :=
    redraw_icon_copy_order sample_assets 0 (sample_env 1 10 5 17) Globals.init
      (by decide) (by decide)
  refine ⟨g1, reqs, h, ?_⟩
  have h2 : redraw_icon sample_assets 0 (sample_env 1 10 5 17) Globals.init = _ :=
    redraw_icon_new_day sample_assets 0 (sample_env 1 10 5 17) Globals.init
      (Or.inl (by decide)) (by decide)
  rw [h2] at h
  injection h with h
  injection h with _ h
  subst h
  decide

/-- C2: for a day of month `d` in `1..31` that differs from `last_day`, with
`W` the width of the digit strip and `dwidth = W / 10`: the digits
`t = d / 10` and `o = d % 10` satisfy `0 <= t, o <= 9` and `10 * t + o = d`;
the glyph copies `redraw_icon` issues have source `x` equal to `dwidth * t`
and `dwidth * o` when `d >= 10`, and `dwidth * d` when `d < 10`; and every
glyph source rectangle lies in the strip: `0 <= x` and `x + dwidth <= W`. -/
theorem redraw_icon_glyph_offsets (a : Assets) (u : Int) (e : Env) (g : Globals)
    (hrc : e.text_prop_rc ≠ 0)
    (hlo : 1 ≤ e.tm.tm_mday) (hhi : e.tm.tm_mday ≤ 31) (hne : e.tm.tm_mday ≠ g.last_day) :
    ∃ g1 reqs, redraw_icon a u e g = Except.ok (g1, reqs) ∧
      0 ≤ e.tm.tm_mday / 10 ∧ e.tm.tm_mday / 10 ≤ 9 ∧
      0 ≤ e.tm.tm_mday % 10 ∧ e.tm.tm_mday % 10 ≤ 9 ∧
      10 * (e.tm.tm_mday / 10) + e.tm.tm_mday % 10 = e.tm.tm_mday ∧
      (10 ≤ e.tm.tm_mday →
        glyph_requests reqs =
          [ Request.XCopyArea XID.digits_pm XID.icon_pm
              (((a.digits_pm_attrs.width / 10 : Nat) : Int) * (e.tm.tm_mday / 10)) 0
              ((a.digits_pm_attrs.width / 10 : Nat) : Int) a.digits_pm_attrs.height 19 28,
            Request.XCopyArea XID.digits_pm XID.icon_pm
              (((a.digits_pm_attrs.width / 10 : Nat) : Int) * (e.tm.tm_mday % 10)) 0
              ((a.digits_pm_attrs.width / 10 : Nat) : Int) a.digits_pm_attrs.height 33 28 ]) ∧
      (e.tm.tm_mday < 10 →
        glyph_requests reqs =
          [ Request.XCopyArea XID.digits_pm XID.icon_pm
              (((a.digits_pm_attrs.width / 10 : Nat) : Int) * e.tm.tm_mday) 0
              ((a.digits_pm_attrs.width / 10 : Nat) : Int) a.digits_pm_attrs.height 26 28 ]) ∧
      (∀ src dest src_x src_y width height dest_x dest_y,
        Request.XCopyArea src dest src_x src_y width height dest_x dest_y ∈ glyph_requests reqs →
          0 ≤ src_x ∧ src_x + ((a.digits_pm_attrs.width / 10 : Nat) : Int)
            ≤ (a.digits_pm_attrs.width : Int)) := by
  have hg : glyph_requests
      (title_requests e g
        ++ ([Request.XCopyArea XID.calendar_pm XID.icon_pm 0 0
              a.calendar_pm_attrs.width a.calendar_pm_attrs.height 0 0]
            ++ glyph_copies a e.tm.tm_mday
            ++ [Request.XSetWMHints (icon_hints g.hints)])
        ++ draw_window a e) = glyph_copies a e.tm.tm_mday := by
    rw [glyph_requests_append, glyph_requests_append, glyph_requests_append,
      glyph_requests_append, glyph_requests_title, glyph_requests_draw_window,
      glyph_requests_glyph_copies]
    simp [glyph_requests]
  obtain ⟨hdiv, hmod⟩ := tdiv_tmod_day e.tm.tm_mday (by omega)
  have hW : 10 * ((a.digits_pm_attrs.width / 10 : Nat) : Int) ≤ (a.digits_pm_attrs.width : Int) := by
    have := Nat.div_mul_le_self a.digits_pm_attrs.width 10
    omega
  have hW0 : (0 : Int) ≤ ((a.digits_pm_attrs.width / 10 : Nat) : Int) := Int.ofNat_nonneg _
  refine ⟨_, _, redraw_icon_new_day a u e g (Or.inl hrc) hne, by omega, by omega, by omega,
    by omega, by omega, ?_, ?_, ?_⟩
  · intro h10
    rw [hg, glyph_copies_two a _ h10, hdiv, hmod]
    rfl
  · intro h10
    rw [hg, glyph_copies_one a _ h10]
    rfl
  · intro src dest src_x src_y width height dest_x dest_y hmem
    rw [hg] at hmem
    have key : ∀ n : Int, 0 ≤ n → n ≤ 9 →
        0 ≤ ((a.digits_pm_attrs.width / 10 : Nat) : Int) * n ∧
        ((a.digits_pm_attrs.width / 10 : Nat) : Int) * n
          + ((a.digits_pm_attrs.width / 10 : Nat) : Int) ≤ (a.digits_pm_attrs.width : Int) := by
      intro n h0 h9
      constructor
      · exact Int.mul_nonneg hW0 h0
      · have : ((a.digits_pm_attrs.width / 10 : Nat) : Int) * n
            ≤ ((a.digits_pm_attrs.width / 10 : Nat) : Int) * 9 :=
          Int.mul_le_mul_of_nonneg_left h9 hW0
        omega
    by_cases h10 : 10 ≤ e.tm.tm_mday
    · rw [glyph_copies_two a _ h10, hdiv, hmod] at hmem
      simp only [List.mem_cons, Request.XCopyArea.injEq, List.mem_singleton, List.mem_nil_iff,
        or_false] at hmem
      rcases hmem with h | h
      · obtain ⟨_, _, hx, _⟩ := h
        rw [hx]
        exact key _ (by omega) (by omega)
      · obtain ⟨_, _, hx, _⟩ := h
        rw [hx]
        exact key _ (by omega) (by omega)
    · rw [glyph_copies_one a _ (by omega)] at hmem
      simp only [List.mem_cons, Request.XCopyArea.injEq, List.mem_singleton, List.mem_nil_iff,
        or_false] at hmem
      obtain ⟨_, _, hx, _⟩ := hmem
      rw [hx]
      exact key _ (by omega) (by omega)

theorem redraw_icon_glyph_offsets_witness :
    ∃ g1 reqs, redraw_icon sample_assets 1 (sample_env 3 23 59 9) Globals.init
        = Except.ok (g1, reqs) ∧
      glyph_requests reqs = [Request.XCopyArea XID.digits_pm XID.icon_pm 126 0 14 20 26 28] := by
  obtain ⟨g1, reqs, h, _, _, _, _, _, _, h1, _⟩ :=
    redraw_icon_glyph_offsets sample_assets 1 (sample_env 3 23 59 9) Globals.init
      (by decide) (by decide) (by decide) (by decide)
  exact ⟨g1, reqs, h, h1 (by decide)⟩

/-- C5: when `tm_min = last_min` and `tm_mday = last_day`, `redraw_icon(0)`
returns without issuing any request and with the globals (`last_min`,
`last_day`, the hints record) unchanged; the display, and with it the icon
pixmap, is left as it was. -/
theorem redraw_icon_idle (a : Assets) (e : Env) (g : Globals)
    (hmin : e.tm.tm_min = g.last_min) (hday : e.tm.tm_mday = g.last_day) :
    redraw_icon a 0 e g = Except.ok (g, []) ∧
      ∀ sv : Server, call a (g, sv) (0, e) = Except.ok (g, sv) := by
  have h : redraw_icon a 0 e g = Except.ok (g, []) := by
    rw [redraw_icon_same_day_quiet a e g (Or.inr hmin) hday]
    simp [title_requests, hmin]
  refine ⟨h, ?_⟩
  intro sv
  simp [call, h, Server.execs]

theorem redraw_icon_idle_witness :
    redraw_icon sample_assets 0 (sample_env 1 10 5 17)
        { last_day := 17, last_min := 5, hints := icon_hints Globals.init.hints }
      = Except.ok ({ last_day := 17, last_min := 5, hints := icon_hints Globals.init.hints }, []) :=
  (redraw_icon_idle sample_assets (sample_env 1 10 5 17)
    { last_day := 17, last_min := 5, hints := icon_hints Globals.init.hints }
    (by decide) (by decide)).1

/-- C6: after `redraw_icon(u)` at time `t` the globals satisfy
`last_min = t.tm_min` and `last_day = t.tm_mday`; a `redraw_icon(0)` that
follows at a time with the same `tm_min` and `tm_mday` issues no request and
leaves the globals and the display unchanged. -/
theorem redraw_icon_caches (a : Assets) (u : Int) (e : Env) (g : Globals)
    (hrc : e.text_prop_rc ≠ 0) :
    ∃ g1 reqs, redraw_icon a u e g = Except.ok (g1, reqs) ∧
      g1.last_min = e.tm.tm_min ∧ g1.last_day = e.tm.tm_mday ∧
      ∀ e2 : Env, e2.tm.tm_min = e.tm.tm_min → e2.tm.tm_mday = e.tm.tm_mday →
        redraw_icon a 0 e2 g1 = Except.ok (g1, []) ∧
        ∀ sv : Server, call a (g1, sv) (0, e2) = Except.ok (g1, sv) := by
  have again : ∀ g1 : Globals, g1.last_min = e.tm.tm_min → g1.last_day = e.tm.tm_mday →
      ∀ e2 : Env, e2.tm.tm_min = e.tm.tm_min → e2.tm.tm_mday = e.tm.tm_mday →
        redraw_icon a 0 e2 g1 = Except.ok (g1, []) ∧
        ∀ sv : Server, call a (g1, sv) (0, e2) = Except.ok (g1, sv) := by
    intro g1 h1 h2 e2 hm hd
    have h : redraw_icon a 0 e2 g1 = Except.ok (g1, []) := by
      have hm2 : e2.tm.tm_min = g1.last_min := by rw [hm, h1]
      rw [redraw_icon_same_day_quiet a e2 g1 (Or.inr hm2) (by rw [hd, h2])]
      simp [title_requests, hm2]
    refine ⟨h, ?_⟩
    intro sv
    simp [call, h, Server.execs]
  by_cases hd : e.tm.tm_mday = g.last_day
  · by_cases hu : u = 0
    · subst hu
      exact ⟨_, _, redraw_icon_same_day_quiet a e g (Or.inl hrc) hd, rfl, hd.symm,
        again _ rfl hd.symm⟩
    · exact ⟨_, _, redraw_icon_same_day_exposed a u e g (Or.inl hrc) hd hu, rfl, hd.symm,
        again _ rfl hd.symm⟩
  · exact ⟨_, _, redraw_icon_new_day a u e g (Or.inl hrc) hd, rfl, rfl, again _ rfl rfl⟩

theorem redraw_icon_caches_witness :
    ∃ g1 reqs, redraw_icon sample_assets 1 (sample_env 1 10 5 17) Globals.init
        = Except.ok (g1, reqs) ∧ g1.last_min = 5 ∧ g1.last_day = 17 ∧
      redraw_icon sample_assets 0 (sample_env 1 11 5 17) g1 = Except.ok (g1, []) := by
  obtain ⟨g1, reqs, h, h1, h2, h3⟩ :=
    redraw_icon_caches sample_assets 1 (sample_env 1 10 5 17) Globals.init (by decide)
  exact ⟨g1, reqs, h, h1, h2, (h3 (sample_env 1 11 5 17) rfl rfl).1⟩

/-- C8: `redraw_icon(1)` returns having cleared the window and copied the
icon pixmap into it exactly once, in that order, whatever `last_day` and
`last_min` are; when `tm_mday = last_day` it copies nothing into the icon
pixmap, issues no `XSetWMHints` and leaves the hints record as it was.
`redraw_icon(0)` draws on the window (the same clear and copy) when `tm_mday`
differs from `last_day`, and not at all when they are equal. -/
theorem redraw_icon_window (a : Assets) (e : Env) (g : Globals) (hrc : e.text_prop_rc ≠ 0) :
    (∃ g1 reqs, redraw_icon a 1 e g = Except.ok (g1, reqs) ∧
      window_draws reqs =
        [ Request.XClearWindow,
          Request.XCopyArea XID.icon_pm XID.win 0 0
            a.calendar_pm_attrs.width a.calendar_pm_attrs.height
            (center_offset e.xgwa_width a.calendar_pm_attrs.width)
            (center_offset e.xgwa_height a.calendar_pm_attrs.height) ] ∧
      (e.tm.tm_mday = g.last_day →
        icon_copies reqs = [] ∧ hints_updates reqs = [] ∧ g1.hints = g.hints)) ∧
    (∃ g0 reqs0, redraw_icon a 0 e g = Except.ok (g0, reqs0) ∧
      (e.tm.tm_mday ≠ g.last_day →
        window_draws reqs0 =
          [ Request.XClearWindow,
            Request.XCopyArea XID.icon_pm XID.win 0 0
              a.calendar_pm_attrs.width a.calendar_pm_attrs.height
              (center_offset e.xgwa_width a.calendar_pm_attrs.width)
              (center_offset e.xgwa_height a.calendar_pm_attrs.height) ]) ∧
      (e.tm.tm_mday = g.last_day → window_draws reqs0 = [])) := by
  have hnew : ∀ u : Int, e.tm.tm_mday ≠ g.last_day →
      ∃ g1 reqs, redraw_icon a u e g = Except.ok (g1, reqs) ∧
        window_draws reqs =
          [ Request.XClearWindow,
            Request.XCopyArea XID.icon_pm XID.win 0 0
              a.calendar_pm_attrs.width a.calendar_pm_attrs.height
              (center_offset e.xgwa_width a.calendar_pm_attrs.width)
              (center_offset e.xgwa_height a.calendar_pm_attrs.height) ] := by
    intro u hd
    refine ⟨_, _, redraw_icon_new_day a u e g (Or.inl hrc) hd, ?_⟩
    rw [window_draws_append, window_draws_append, window_draws_append, window_draws_append,
      window_draws_title, window_draws_glyph_copies, window_draws_draw_window]
    simp [window_draws]
  constructor
  · by_cases hd : e.tm.tm_mday = g.last_day
    · refine ⟨_, _, redraw_icon_same_day_exposed a 1 e g (Or.inl hrc) hd (by decide), ?_, ?_⟩
      · rw [window_draws_append, window_draws_title, window_draws_draw_window]
        rfl
      · intro _
        refine ⟨?_, ?_, rfl⟩
        · rw [icon_copies_append, icon_copies_title, icon_copies_draw_window]
          rfl
        · rw [hints_updates_append, hints_updates_title, hints_updates_draw_window]
          rfl
    · obtain ⟨g1, reqs, h, hw⟩ := hnew 1 hd
      exact ⟨g1, reqs, h, hw, fun h2 => absurd h2 hd⟩
  · by_cases hd : e.tm.tm_mday = g.last_day
    · exact ⟨_, _, redraw_icon_same_day_quiet a e g (Or.inl hrc) hd,
        fun h2 => absurd hd h2, fun _ => window_draws_title e g⟩
    · obtain ⟨g0, reqs0, h, hw⟩ := hnew 0 hd
      exact ⟨g0, reqs0, h, fun _ => hw, fun h2 => absurd h2 hd⟩

theorem redraw_icon_window_witness :
    ∃ g1 reqs, redraw_icon sample_assets 1 (sample_env 1 10 5 17)
        { last_day := 17, last_min := 5, hints := icon_hints Globals.init.hints }
          = Except.ok (g1, reqs) ∧
      window_draws reqs =
        [Request.XClearWindow, Request.XCopyArea XID.icon_pm XID.win 0 0 64 64 68 18] := by
  obtain ⟨⟨g1, reqs, h, hw, _⟩, _⟩ :=
    redraw_icon_window sample_assets (sample_env 1 10 5 17)
      { last_day := 17, last_min := 5, hints := icon_hints Globals.init.hints } (by decide)
  refine ⟨g1, reqs, h, ?_⟩
  rw [hw]
  decide

/-- C9: for a window of size `(w, h)` and a calendar of size `(cw, ch)`, all
non-negative, with `cw <= w` and `ch <= h`, the window draw copies the icon to
`(xo, yo)` with `xo = w/2 - cw/2` and `yo = h/2 - ch/2`; the copy lies in the
window (`0 <= xo`, `xo + cw <= w`, `0 <= yo`, `yo + ch <= h`), and the left
and right margins `xo` and `w - cw - xo` differ by at most 1, as do the top
and bottom margins. -/
theorem draw_window_centered (a : Assets) (e : Env)
    (hw : (a.calendar_pm_attrs.width : Int) ≤ e.xgwa_width)
    (hh : (a.calendar_pm_attrs.height : Int) ≤ e.xgwa_height) :
    ∃ xo yo : Int,
      xo = e.xgwa_width / 2 - (a.calendar_pm_attrs.width : Int) / 2 ∧
      yo = e.xgwa_height / 2 - (a.calendar_pm_attrs.height : Int) / 2 ∧
      window_draws (draw_window a e) =
        [ Request.XClearWindow,
          Request.XCopyArea XID.icon_pm XID.win 0 0
            a.calendar_pm_attrs.width a.calendar_pm_attrs.height xo yo ] ∧
      0 ≤ xo ∧ xo + a.calendar_pm_attrs.width ≤ e.xgwa_width ∧
      0 ≤ yo ∧ yo + a.calendar_pm_attrs.height ≤ e.xgwa_height ∧
      xo - (e.xgwa_width - a.calendar_pm_attrs.width - xo) ≤ 1 ∧
      (e.xgwa_width - a.calendar_pm_attrs.width - xo) - xo ≤ 1 ∧
      yo - (e.xgwa_height - a.calendar_pm_attrs.height - yo) ≤ 1 ∧
      (e.xgwa_height - a.calendar_pm_attrs.height - yo) - yo ≤ 1 := by
  have hw0 : 0 ≤ e.xgwa_width := by omega
  have hh0 : 0 ≤ e.xgwa_height := by omega
  have hx : center_offset e.xgwa_width a.calendar_pm_attrs.width
      = e.xgwa_width / 2 - (a.calendar_pm_attrs.width : Int) / 2 := by
    unfold center_offset
    rw [Int.tdiv_eq_ediv hw0 (by decide)]
    omega
  have hy : center_offset e.xgwa_height a.calendar_pm_attrs.height
      = e.xgwa_height / 2 - (a.calendar_pm_attrs.height : Int) / 2 := by
    unfold center_offset
    rw [Int.tdiv_eq_ediv hh0 (by decide)]
    omega
  refine ⟨_, _, rfl, rfl, ?_, by omega, by omega, by omega, by omega, by omega, by omega,
    by omega, by omega⟩
  rw [window_draws_draw_window, hx, hy]

theorem draw_window_centered_witness :
    window_draws (draw_window sample_assets (sample_env 1 10 5 17)) =
      [Request.XClearWindow, Request.XCopyArea XID.icon_pm XID.win 0 0 64 64 68 18] := by
  obtain ⟨xo, yo, hx, hy, h, _⟩ :=
    draw_window_centered sample_assets (sample_env 1 10 5 17) (by decide) (by decide)
  rw [h, hx, hy]
  decide

/-! ## The event loop and the signal handler -/

theorem loop_body_break (it : Iteration) (h : it.pending_before = 0 ∧ it.revents ≠ 0) :
    loop_body it = ([Action.poll], Control.loop_break) := by
  unfold loop_body
  simp [h.1, h.2]

theorem loop_body_continue (it : Iteration) (h : ¬ (it.pending_before = 0 ∧ it.revents ≠ 0)) :
    (loop_body it).2 = Control.loop_continue ∧
    (Action.redraw_icon 0 ∈ (loop_body it).1 ↔ (it.pending_before = 0 ∧ it.pending_after = 0)) ∧
    ((it.pending_before = 0 ∧ it.pending_after = 0) →
      (loop_body it).1 = [Action.poll, Action.redraw_icon 0]) ∧
    (¬ (it.pending_before = 0 ∧ it.pending_after = 0) → Action.XNextEvent ∈ (loop_body it).1) := by
  revert h
  unfold loop_body
  by_cases h1 : it.pending_before = 0 <;> by_cases h2 : it.revents = 0 <;>
    by_cases h3 : it.pending_after = 0 <;> by_cases h4 : it.event_type = Expose <;>
    simp [h1, h2, h3, h4]

theorem main_loop_running (before rest : List Iteration)
    (h : ∀ i ∈ before, ¬ (i.pending_before = 0 ∧ i.revents ≠ 0)) :
    main_loop (before ++ rest)
      = ((main_loop before).1 ++ (main_loop rest).1, (main_loop rest).2) ∧
    (main_loop before).2 = none := by
  induction before with
  | nil => simp [main_loop]
  | cons i before ih =>
    have hi := (loop_body_continue i (h i (by simp))).1
    obtain ⟨ih1, ih2⟩ := ih (fun j hj => h j (by simp [hj]))
    simp [main_loop, hi, ih1, ih2]

theorem main_loop_result (its : List Iteration) :
    ((main_loop its).2 = some 0 ↔ ∃ i ∈ its, i.pending_before = 0 ∧ i.revents ≠ 0) ∧
    ((main_loop its).2 = none ↔ ∀ i ∈ its, ¬ (i.pending_before = 0 ∧ i.revents ≠ 0)) := by
  induction its with
  | nil => simp [main_loop]
  | cons i its ih =>
    by_cases hi : i.pending_before = 0 ∧ i.revents ≠ 0
    · have hb := loop_body_break i hi
      constructor
      · simp only [main_loop, hb, true_iff]
        exact ⟨i, by simp, hi⟩
      · simp only [main_loop, hb]
        constructor
        · intro h
          simp at h
        · intro h
          exact absurd hi (h i (by simp))
    · have hc := (loop_body_continue i hi).1
      obtain ⟨ih1, ih2⟩ := ih
      constructor
      · simp only [main_loop, hc, ih1]
        constructor
        · rintro ⟨j, hj, hx⟩
          exact ⟨j, by simp [hj], hx⟩
        · rintro ⟨j, hj, hx⟩
          simp only [List.mem_cons] at hj
          rcases hj with hj | hj
          · subst hj
            exact absurd hx hi
          · exact ⟨j, hj, hx⟩
      · simp only [main_loop, hc, ih2]
        constructor
        · intro h j hj
          simp only [List.mem_cons] at hj
          rcases hj with hj | hj
          · subst hj
            exact hi
          · exact h j hj
        · intro h j hj
          exact h j (by simp [hj])

/-- C7: run the loop of `main` over the iterations the environment presents,
each given by (X events pending before the wait, `revents` of the exit pipe
after the wait, X events pending after the wait).  As long as no iteration
has had no X event pending at its start and a non-zero `revents`, the loop is
still running (`main` has not returned).  In the first iteration that has, the
loop ends: that iteration only waits (it calls no `redraw_icon` and takes no X
event), no later iteration is run, and `main` returns 0.  Every other
iteration is followed by the next one, and it calls `redraw_icon(0)` exactly
when it waited and no X event is pending after the wait (it then does nothing
else), and otherwise takes an X event.  So `main` returns, with 0, exactly
when some iteration has no X event pending at its start and a non-zero
`revents`. -/
theorem main_loop_exit (before rest : List Iteration) (it : Iteration)
    (hbefore : ∀ i ∈ before, ¬ (i.pending_before = 0 ∧ i.revents ≠ 0)) :
    (main_loop before).2 = none ∧
    ((it.pending_before = 0 ∧ it.revents ≠ 0) →
      main_loop (before ++ it :: rest) = ((main_loop before).1 ++ [Action.poll], some 0)) ∧
    (¬ (it.pending_before = 0 ∧ it.revents ≠ 0) →
      main_loop (before ++ it :: rest)
        = ((main_loop before).1 ++ ((loop_body it).1 ++ (main_loop rest).1),
            (main_loop rest).2) ∧
      main_loop (before ++ [it]) = ((main_loop before).1 ++ (loop_body it).1, none) ∧
      (Action.redraw_icon 0 ∈ (loop_body it).1 ↔
        (it.pending_before = 0 ∧ it.pending_after = 0)) ∧
      ((it.pending_before = 0 ∧ it.pending_after = 0) →
        (loop_body it).1 = [Action.poll, Action.redraw_icon 0]) ∧
      (¬ (it.pending_before = 0 ∧ it.pending_after = 0) →
        Action.XNextEvent ∈ (loop_body it).1)) ∧
    (∀ its : List Iteration,
      ((main_loop its).2 = some 0 ↔ ∃ i ∈ its, i.pending_before = 0 ∧ i.revents ≠ 0) ∧
      ((main_loop its).2 = none ↔ ∀ i ∈ its, ¬ (i.pending_before = 0 ∧ i.revents ≠ 0))) := by
  refine ⟨(main_loop_running before [] hbefore).2, ?_, ?_, main_loop_result⟩
  · intro hx
    rw [(main_loop_running before (it :: rest) hbefore).1]
    simp [main_loop, loop_body_break it hx]
  · intro hx
    obtain ⟨c1, c2, c3, c4⟩ := loop_body_continue it hx
    refine ⟨?_, ?_, c2, c3, c4⟩
    · rw [(main_loop_running before (it :: rest) hbefore).1]
      simp [main_loop, c1]
    · rw [(main_loop_running before [it] hbefore).1]
      simp [main_loop, c1]

theorem main_loop_exit_witness :
    main_loop
      ([{ pending_before := 0, revents := 0, pending_after := 0, event_type := 0 },
        { pending_before := 1, revents := 0, pending_after := 0, event_type := 12 }]
        ++ { pending_before := 0, revents := 1, pending_after := 0, event_type := 0 }
          :: [{ pending_before := 0, revents := 0, pending_after := 0, event_type := 0 }])
      = ([Action.poll, Action.redraw_icon 0, Action.XNextEvent, Action.redraw_icon 1,
          Action.poll], some 0) := by
  have h := (main_loop_exit
    [{ pending_before := 0, revents := 0, pending_after := 0, event_type := 0 },
     { pending_before := 1, revents := 0, pending_after := 0, event_type := 12 }]
    [{ pending_before := 0, revents := 0, pending_after := 0, event_type := 0 }]
    { pending_before := 0, revents := 1, pending_after := 0, event_type := 0 }
    (by decide)).2.1 (by decide)
  rw [h]
  decide

/-- The handler returns exactly when the result of `write` is not zero. -/
theorem killer_returns_iff (write_result : Int) :
    killer write_result = KillerResult.returned ↔ write_result ≠ 0 := by
  unfold killer
  by_cases h : write_result = 0 <;> simp [h]

/-- C10 (the code departs from it): when `write` fails with -1 the handler
returns normally, with no warning and no exit. -/
theorem killer_failed_write_returns : killer (-1) = KillerResult.returned := by
  decide

/-! ## Sequences of calls: the names -/

theorem execs_append (a : Assets) (sv : Server) (r1 r2 : List Request) :
    Server.execs a sv (r1 ++ r2) = Server.execs a (Server.execs a sv r1) r2 := by
  simp [Server.execs, List.foldl_append]

theorem execs_title_names (a : Assets) (sv : Server) (e : Env) (g : Globals) :
    (e.tm.tm_min ≠ g.last_min →
      (Server.execs a sv (title_requests e g)).wm_name = some (strftime_title e.tm) ∧
      (Server.execs a sv (title_requests e g)).wm_icon_name = some (strftime_title e.tm)) ∧
    (e.tm.tm_min = g.last_min → Server.execs a sv (title_requests e g) = sv) := by
  constructor
  · intro h
    simp [title_requests, h, Server.execs, Server.exec]
  · intro h
    simp [title_requests, h, Server.execs]

theorem execs_rebuild_names (a : Assets) (sv : Server) (d : Int) (h : XWMHints) :
    (Server.execs a sv
      ([Request.XCopyArea XID.calendar_pm XID.icon_pm 0 0
          a.calendar_pm_attrs.width a.calendar_pm_attrs.height 0 0]
        ++ glyph_copies a d ++ [Request.XSetWMHints h])).wm_name = sv.wm_name ∧
    (Server.execs a sv
      ([Request.XCopyArea XID.calendar_pm XID.icon_pm 0 0
          a.calendar_pm_attrs.width a.calendar_pm_attrs.height 0 0]
        ++ glyph_copies a d ++ [Request.XSetWMHints h])).wm_icon_name = sv.wm_icon_name := by
  unfold glyph_copies
  split <;> simp [Server.execs, Server.exec]

theorem execs_draw_window (a : Assets) (sv : Server) (e : Env) :
    Server.execs a sv (draw_window a e)
      = { sv with gc_clip_mask := XID.calendar_pm_mask, gc_clip_x := 0, gc_clip_y := 0 } := by
  simp [draw_window, Server.execs, Server.exec]

theorem call_of_ok (a : Assets) (g : Globals) (sv : Server) (u : Int) (e : Env)
    (g1 : Globals) (reqs : List Request) (h : redraw_icon a u e g = Except.ok (g1, reqs)) :
    call a (g, sv) (u, e) = Except.ok (g1, Server.execs a sv reqs) := by
  simp [call, h]

theorem call_names (a : Assets) (g : Globals) (sv : Server) (u : Int) (e : Env)
    (hrc : e.text_prop_rc ≠ 0) :
    ∃ g1 sv1, call a (g, sv) (u, e) = Except.ok (g1, sv1) ∧ g1.last_min = e.tm.tm_min ∧
      (e.tm.tm_min ≠ g.last_min →
        sv1.wm_name = some (strftime_title e.tm) ∧
        sv1.wm_icon_name = some (strftime_title e.tm)) ∧
      (e.tm.tm_min = g.last_min →
        sv1.wm_name = sv.wm_name ∧ sv1.wm_icon_name = sv.wm_icon_name) := by
  obtain ⟨ht1, ht2⟩ := execs_title_names a sv e g
  by_cases hd : e.tm.tm_mday = g.last_day
  · by_cases hu : u = 0
    · subst hu
      refine ⟨_, _, call_of_ok a g sv 0 e _ _ (redraw_icon_same_day_quiet a e g (Or.inl hrc) hd),
        rfl, ht1, ?_⟩
      intro h
      rw [ht2 h]
      exact ⟨rfl, rfl⟩
    · refine ⟨_, _, call_of_ok a g sv u e _ _ (redraw_icon_same_day_exposed a u e g (Or.inl hrc) hd hu),
        rfl, ?_, ?_⟩
      · intro h
        rw [execs_append, execs_draw_window]
        exact ht1 h
      · intro h
        rw [execs_append, execs_draw_window, ht2 h]
        exact ⟨rfl, rfl⟩
  · refine ⟨_, _, call_of_ok a g sv u e _ _ (redraw_icon_new_day a u e g (Or.inl hrc) hd),
      rfl, ?_, ?_⟩
    · intro h
      rw [execs_append, execs_draw_window, execs_append]
      obtain ⟨h3, h4⟩ := execs_rebuild_names a (Server.execs a sv (title_requests e g))
        e.tm.tm_mday (icon_hints g.hints)
      obtain ⟨h1, h2⟩ := ht1 h
      exact ⟨h3.trans h1, h4.trans h2⟩
    · intro h
      rw [execs_append, execs_draw_window, execs_append, ht2 h]
      exact execs_rebuild_names a sv e.tm.tm_mday (icon_hints g.hints)

theorem calls_append (a : Assets) (cs1 cs2 : List (Int × Env)) (st st1 : Globals × Server)
    (h : calls a st cs1 = Except.ok st1) :
    calls a st (cs1 ++ cs2) = calls a st1 cs2 := by
  induction cs1 generalizing st with
  | nil =>
    simp only [calls, Except.ok.injEq] at h
    subst h
    rfl
  | cons c cs ih =>
    simp only [calls, List.cons_append] at h ⊢
    cases hc : call a st c with
    | error status => simp [hc] at h
    | ok st2 =>
      simp only [hc] at h ⊢
      exact ih st2 h

theorem title_time_append (shown : Option Tm) (m : Int) (cs1 cs2 : List (Int × Env)) :
    title_time shown m (cs1 ++ cs2)
      = title_time (title_time shown m cs1) (last_minute m cs1) cs2 := by
  induction cs1 generalizing shown m with
  | nil => rfl
  | cons c cs ih =>
    simp only [List.cons_append, title_time, last_minute]
    split <;> exact ih _ _

theorem calls_title_inv (a : Assets) (cs : List (Int × Env)) :
    ∀ (g : Globals) (sv : Server) (shown : Option Tm),
      (∀ c ∈ cs, c.2.tm.valid ∧ c.2.text_prop_rc ≠ 0) → title_inv g sv shown →
      ∃ g1 sv1, calls a (g, sv) cs = Except.ok (g1, sv1) ∧
        title_inv g1 sv1 (title_time shown g.last_min cs) ∧
        g1.last_min = last_minute g.last_min cs := by
  induction cs with
  | nil =>
    intro g sv shown _ hinv
    exact ⟨g, sv, rfl, hinv, rfl⟩
  | cons c cs ih =>
    intro g sv shown hall hinv
    obtain ⟨hval, hrc⟩ := hall c (by simp)
    obtain ⟨g1, sv1, hcall, hmin, hchg, hsame⟩ := call_names a g sv c.1 c.2 hrc
    have hinv1 : title_inv g1 sv1
        (if c.2.tm.tm_min ≠ g.last_min then some c.2.tm else shown) := by
      by_cases hm : c.2.tm.tm_min = g.last_min
      · obtain ⟨h1, h2⟩ := hsame hm
        obtain ⟨i1, i2, i3, i4⟩ := hinv
        simp only [hm, ne_eq, not_true_eq_false, ite_false]
        refine ⟨h1.trans i1, h2.trans i2, ?_, ?_⟩
        · intro t ht
          rw [hmin, hm]
          exact i3 t ht
        · intro hn
          rw [hmin, hm]
          exact i4 hn
      · obtain ⟨h1, h2⟩ := hchg hm
        simp only [hm, ne_eq, not_false_eq_true, ite_true]
        refine ⟨h1, h2, ?_, ?_⟩
        · intro t ht
          simp only [Option.some.injEq] at ht
          rw [← ht, hmin]
        · intro hn
          simp at hn
    obtain ⟨g2, sv2, hcalls, hinv2, hmin2⟩ :=
      ih g1 sv1 _ (fun c2 hc2 => hall c2 (by simp [hc2])) hinv1
    refine ⟨g2, sv2, ?_, ?_, ?_⟩
    · have : call a (g, sv) c = Except.ok (g1, sv1) := hcall
      simp only [calls, this]
      exact hcalls
    · rw [hmin] at hinv2
      simp only [title_time]
      split
      · rename_i hm
        simpa [hm] using hinv2
      · rename_i hm
        simpa [hm] using hinv2
    · rw [hmin2, hmin]
      rfl

/-- C4 as the code has it: from the initial state, after every call of a
sequence of calls with valid times, `redraw_icon` has returned and the window
name and the icon name are both the `"%a %H:%M"` rendering of one time `t`:
the time of the latest call whose minute differs from the minute of the call
before it (the first call counts).  `t` has the minute of that very call, and
is the time of that very call whenever its minute differs from the minute of
the call before. -/
theorem names_show_minute_start (a : Assets) (icon0 : Int → Int → Nat)
    (pre : List (Int × Env)) (c : Int × Env)
    (hall : ∀ c1 ∈ pre ++ [c], c1.2.tm.valid ∧ c1.2.text_prop_rc ≠ 0) :
    ∃ g sv t, calls a (Globals.init, Server.init icon0) (pre ++ [c]) = Except.ok (g, sv) ∧
      title_time none (-1) (pre ++ [c]) = some t ∧
      sv.wm_name = some (strftime_title t) ∧ sv.wm_icon_name = some (strftime_title t) ∧
      t.tm_min = c.2.tm.tm_min ∧
      (last_minute (-1) pre ≠ c.2.tm.tm_min → t = c.2.tm) := by
  have hinit : title_inv Globals.init (Server.init icon0) none := by
    simp [title_inv, Server.init, Globals.init]
  obtain ⟨g, sv, hcalls, ⟨i1, i2, i3, _⟩, hmin⟩ :=
    calls_title_inv a (pre ++ [c]) Globals.init (Server.init icon0) none hall hinit
  have hlast : last_minute (-1) pre ≠ c.2.tm.tm_min → title_time none (-1) (pre ++ [c])
      = some c.2.tm := by
    intro h
    rw [title_time_append]
    simp [title_time, Ne.symm h]
  have hsome : ∃ t, title_time none (-1) (pre ++ [c]) = some t := by
    rw [title_time_append]
    simp only [title_time]
    split
    · exact ⟨_, rfl⟩
    · rename_i hm
      have hm2 : c.2.tm.tm_min = last_minute (-1) pre := by
        by_contra hne
        exact hm hne
      cases hp : title_time none (-1) pre with
      | some t => exact ⟨t, rfl⟩
      | none =>
        exfalso
        have hpre : ∀ c1 ∈ pre, c1.2.tm.valid ∧ c1.2.text_prop_rc ≠ 0 :=
          fun c1 h1 => hall c1 (by simp [h1])
        obtain ⟨g1, sv1, _, ⟨_, _, _, j4⟩, hmin1⟩ :=
          calls_title_inv a pre Globals.init (Server.init icon0) none hpre hinit
        have h5 := j4 hp
        rw [hmin1] at h5
        have hv := (hall c (by simp)).1
        simp only [Globals.init] at h5
        unfold Tm.valid at hv
        omega
  obtain ⟨t, ht⟩ := hsome
  have hgm : g.last_min = c.2.tm.tm_min := by
    rw [hmin]
    have : ∀ (m : Int) (l : List (Int × Env)), last_minute m (l ++ [c]) = c.2.tm.tm_min := by
      intro m l
      induction l generalizing m with
      | nil => rfl
      | cons x l ih => exact ih _
    exact this _ _
  refine ⟨g, sv, t, hcalls, ht, ?_, ?_, ?_, ?_⟩
  · simpa [Globals.init, ht] using i1
  · simpa [Globals.init, ht] using i2
  · have := i3 t (by simpa [Globals.init] using ht)
    rw [this, hgm]
  · intro h
    have := hlast h
    rw [ht] at this
    exact Option.some.inj this

theorem names_show_minute_start_witness :
    ∃ g sv, calls sample_assets (Globals.init, Server.init (fun _ _ => 0))
        ([(1, sample_env 1 10 5 17)] ++ [(0, sample_env 1 10 6 17)]) = Except.ok (g, sv) ∧
      sv.wm_name = some ['M', 'o', 'n', ' ', '1', '0', ':', '0', '6'] := by
  obtain ⟨g, sv, t, h, _, hn, _, _, ht⟩ :=
    names_show_minute_start sample_assets (fun _ _ => 0)
      [(1, sample_env 1 10 5 17)] (0, sample_env 1 10 6 17) (by decide)
  refine ⟨g, sv, h, ?_⟩
  rw [hn, ht (by decide)]
  decide

/-- C4 as stated fails: a first call on Monday at 10:05 and a second call on
Monday at 11:05 (both valid times, same minute) both return, and after the
second call the window name and the icon name still read `Mon 10:05`, not the
rendering `Mon 11:05` of the time of that call. -/
theorem names_stale_after_an_hour :
    (sample_env 1 10 5 17).tm.valid ∧ (sample_env 1 11 5 17).tm.valid ∧
    strftime_title (sample_env 1 11 5 17).tm = ['M', 'o', 'n', ' ', '1', '1', ':', '0', '5'] ∧
    ∃ g sv, calls sample_assets (Globals.init, Server.init (fun _ _ => 0))
        [(1, sample_env 1 10 5 17), (0, sample_env 1 11 5 17)] = Except.ok (g, sv) ∧
      sv.wm_name = some ['M', 'o', 'n', ' ', '1', '0', ':', '0', '5'] ∧
      sv.wm_icon_name = some ['M', 'o', 'n', ' ', '1', '0', ':', '0', '5'] ∧
      sv.wm_name ≠ some (strftime_title (sample_env 1 11 5 17).tm) ∧
      sv.wm_icon_name ≠ some (strftime_title (sample_env 1 11 5 17).tm) :=
  ⟨by decide, by decide, by decide, _, _, rfl, by decide, by decide, by decide, by decide⟩

/-! ## Sequences of calls: the icon pixmap -/

theorem copy_background (a : Assets) (sv : Server) (x y : Int) :
    copy_area a sv XID.calendar_pm 0 0
        a.calendar_pm_attrs.width a.calendar_pm_attrs.height 0 0 x y
      = if in_bounds a.calendar_pm_attrs x y ∧ clip_allows a sv x y = true then
          a.calendar_px x y
        else sv.icon_pm x y := by
  unfold copy_area source_px
  by_cases hb : in_bounds a.calendar_pm_attrs x y
  · by_cases hc : clip_allows a sv x y = true
    · have hb2 := hb
      unfold in_bounds at hb2
      obtain ⟨h1, h2, h3, h4⟩ := hb2
      simp [hb, hc, h1, h2, h3, h4]
    · simp [hb, hc]
  · simp [hb]

theorem copy_glyph (a : Assets) (sv : Server) (n ox oy x y : Int) (h0 : 0 ≤ n) (h9 : n ≤ 9) :
    copy_area a sv XID.digits_pm (dwidth a * n) 0 (dwidth a) a.digits_pm_attrs.height ox oy x y
      = if in_bounds a.calendar_pm_attrs x y ∧ clip_allows a sv x y = true then
          overlay a sv.icon_pm (glyph a n) ox oy x y
        else sv.icon_pm x y := by
  have hW : 10 * dwidth a ≤ (a.digits_pm_attrs.width : Int) := by
    unfold dwidth
    have := Nat.div_mul_le_self a.digits_pm_attrs.width 10
    omega
  have hW0 : 0 ≤ dwidth a := by
    unfold dwidth
    exact Int.ofNat_nonneg _
  have hn0 : 0 ≤ dwidth a * n := Int.mul_nonneg hW0 h0
  have hn9 : dwidth a * n ≤ dwidth a * 9 := Int.mul_le_mul_of_nonneg_left h9 hW0
  unfold copy_area overlay glyph source_px
  by_cases hb : in_bounds a.calendar_pm_attrs x y
  · by_cases hc : clip_allows a sv x y = true
    · by_cases hr : ox ≤ x ∧ x < ox + dwidth a ∧ oy ≤ y ∧ y < oy + a.digits_pm_attrs.height
      · obtain ⟨r1, r2, r3, r4⟩ := hr
        have hs : in_bounds a.digits_pm_attrs (dwidth a * n + (x - ox)) (y - oy) := by
          unfold in_bounds
          refine ⟨by omega, by omega, by omega, by omega⟩
        have hx : x - ox + dwidth a * n = dwidth a * n + (x - ox) := by omega
        simp [hb, hc, r1, r2, r3, r4, hs, hx]
      · have hr2 : ¬ (ox ≤ x ∧ x < ox + dwidth a ∧ oy ≤ y ∧ y < oy + a.digits_pm_attrs.height
            ∧ in_bounds a.calendar_pm_attrs x y ∧ clip_allows a sv x y = true) :=
          fun h => hr ⟨h.1, h.2.1, h.2.2.1, h.2.2.2.1⟩
        simp [hr, hr2, hb, hc]
    · simp [hb, hc]
  · simp [hb]

theorem clip_allows_icon (a : Assets) (sv : Server) (f : Int → Int → Nat) (x y : Int) :
    clip_allows a { sv with icon_pm := f } x y = clip_allows a sv x y := rfl

theorem execs_rebuild (a : Assets) (sv : Server) (d : Int) (h : XWMHints)
    (hlo : 1 ≤ d) (hhi : d ≤ 31) :
    (Server.execs a sv
      ([Request.XCopyArea XID.calendar_pm XID.icon_pm 0 0
          a.calendar_pm_attrs.width a.calendar_pm_attrs.height 0 0]
        ++ glyph_copies a d ++ [Request.XSetWMHints h])).gc_clip_mask = sv.gc_clip_mask ∧
    (Server.execs a sv
      ([Request.XCopyArea XID.calendar_pm XID.icon_pm 0 0
          a.calendar_pm_attrs.width a.calendar_pm_attrs.height 0 0]
        ++ glyph_copies a d ++ [Request.XSetWMHints h])).gc_clip_x = sv.gc_clip_x ∧
    (Server.execs a sv
      ([Request.XCopyArea XID.calendar_pm XID.icon_pm 0 0
          a.calendar_pm_attrs.width a.calendar_pm_attrs.height 0 0]
        ++ glyph_copies a d ++ [Request.XSetWMHints h])).gc_clip_y = sv.gc_clip_y ∧
    (Server.execs a sv
      ([Request.XCopyArea XID.calendar_pm XID.icon_pm 0 0
          a.calendar_pm_attrs.width a.calendar_pm_attrs.height 0 0]
        ++ glyph_copies a d ++ [Request.XSetWMHints h])).wm_hints = some h ∧
    ∀ x y : Int,
      (Server.execs a sv
        ([Request.XCopyArea XID.calendar_pm XID.icon_pm 0 0
            a.calendar_pm_attrs.width a.calendar_pm_attrs.height 0 0]
          ++ glyph_copies a d ++ [Request.XSetWMHints h])).icon_pm x y
        = if in_bounds a.calendar_pm_attrs x y ∧ clip_allows a sv x y = true then
            calendar_with_digits a d x y
          else sv.icon_pm x y := by
  obtain ⟨hdiv, hmod⟩ := tdiv_tmod_day d (by omega)
  by_cases h10 : 10 ≤ d
  · rw [glyph_copies_two a d h10, hdiv, hmod]
    simp only [Server.execs, List.cons_append, List.nil_append, List.foldl_cons, List.foldl_nil,
      Server.exec, if_true, true_and]
    intro x y
    have g1 := fun sv x y => copy_glyph a sv (d % 10) 33 28 x y (by omega) (by omega)
    have g2 := fun sv x y => copy_glyph a sv (d / 10) 19 28 x y (by omega) (by omega)
    unfold calendar_with_digits
    by_cases hb : in_bounds a.calendar_pm_attrs x y ∧ clip_allows a sv x y = true
    · simp [g1, g2, copy_background, clip_allows_icon, overlay, hb, h10]
    · simp [g1, g2, copy_background, clip_allows_icon, overlay, hb]
  · rw [glyph_copies_one a d (by omega)]
    simp only [Server.execs, List.cons_append, List.nil_append, List.foldl_cons, List.foldl_nil,
      Server.exec, if_true, true_and]
    intro x y
    have g1 := fun sv x y => copy_glyph a sv d 26 28 x y (by omega) (by omega)
    unfold calendar_with_digits
    by_cases hb : in_bounds a.calendar_pm_attrs x y ∧ clip_allows a sv x y = true
    · simp [g1, copy_background, clip_allows_icon, overlay, hb, h10]
    · simp [g1, copy_background, clip_allows_icon, overlay, hb]

theorem execs_title_frame (a : Assets) (sv : Server) (e : Env) (g : Globals) :
    (Server.execs a sv (title_requests e g)).icon_pm = sv.icon_pm ∧
    (Server.execs a sv (title_requests e g)).gc_clip_mask = sv.gc_clip_mask ∧
    (Server.execs a sv (title_requests e g)).gc_clip_x = sv.gc_clip_x ∧
    (Server.execs a sv (title_requests e g)).gc_clip_y = sv.gc_clip_y ∧
    (Server.execs a sv (title_requests e g)).wm_hints = sv.wm_hints := by
  unfold title_requests
  split <;> simp [Server.execs, Server.exec]

theorem calendar_outside_glyphs (a : Assets) (d x y : Int) (h : ¬ in_glyph_area a x y) :
    calendar_with_digits a d x y = a.calendar_px x y := by
  have h19 : ¬ (19 ≤ x ∧ x < 19 + dwidth a ∧ 28 ≤ y ∧ y < 28 + a.digits_pm_attrs.height) :=
    fun c => h ⟨Or.inl ⟨c.1, c.2.1⟩, c.2.2.1, c.2.2.2⟩
  have h26 : ¬ (26 ≤ x ∧ x < 26 + dwidth a ∧ 28 ≤ y ∧ y < 28 + a.digits_pm_attrs.height) :=
    fun c => h ⟨Or.inr (Or.inl ⟨c.1, c.2.1⟩), c.2.2.1, c.2.2.2⟩
  have h33 : ¬ (33 ≤ x ∧ x < 33 + dwidth a ∧ 28 ≤ y ∧ y < 28 + a.digits_pm_attrs.height) :=
    fun c => h ⟨Or.inr (Or.inr ⟨c.1, c.2.1⟩), c.2.2.1, c.2.2.2⟩
  unfold calendar_with_digits overlay
  split
  · simp only [if_neg h33, if_neg h19]
  · simp only [if_neg h26]

theorem clip_allows_unclipped (a : Assets) (sv : Server) (x y : Int)
    (h : sv.gc_clip_mask = XID.None) : clip_allows a sv x y = true := by
  simp [clip_allows, h]

theorem clip_allows_shape (a : Assets) (sv : Server) (x y : Int)
    (hm : sv.gc_clip_mask = XID.calendar_pm_mask) (hx : sv.gc_clip_x = 0) (hy : sv.gc_clip_y = 0)
    (hb : in_bounds a.calendar_pm_attrs x y) : clip_allows a sv x y = mask_bit a x y := by
  unfold clip_allows mask_bit
  rw [if_pos hm, hx, hy]
  cases a.calendar_mask with
  | none => rfl
  | some m => simp [hb]

theorem call_icon_inv (a : Assets) (g : Globals) (sv : Server) (u : Int) (e : Env)
    (hlo : 1 ≤ e.tm.tm_mday) (hhi : e.tm.tm_mday ≤ 31) (hrc : e.text_prop_rc ≠ 0)
    (hinv : icon_inv a g sv) :
    ∃ g1 sv1, call a (g, sv) (u, e) = Except.ok (g1, sv1) ∧ g1.last_day = e.tm.tm_mday ∧
      icon_inv a g1 sv1 := by
  obtain ⟨t1, t2, t3, t4, t5⟩ := execs_title_frame a sv e g
  by_cases hd : e.tm.tm_mday = g.last_day
  · have hinv2 : 1 ≤ g.last_day ∧ g.last_day ≤ 31 ∧
        sv.gc_clip_mask = XID.calendar_pm_mask ∧ sv.gc_clip_x = 0 ∧ sv.gc_clip_y = 0 ∧
        sv.wm_hints = some g.hints ∧ g.hints.icon_pixmap = XID.icon_pm ∧
        g.hints.icon_mask = XID.calendar_pm_mask ∧ g.hints.flags = 36 ∧
        icon_shows a sv g.last_day := by
      rcases hinv with h | h
      · omega
      · exact h
    obtain ⟨i1, i2, i3, i4, i5, i6, i7, i8, iflags, i9⟩ := hinv2
    by_cases hu : u = 0
    · subst hu
      refine ⟨_, _, call_of_ok a g sv 0 e _ _ (redraw_icon_same_day_quiet a e g (Or.inl hrc) hd),
        hd.symm, Or.inr ⟨i1, i2, ?_, ?_, ?_, ?_, i7, i8, iflags, ?_⟩⟩
      · rw [t2]; exact i3
      · rw [t3]; exact i4
      · rw [t4]; exact i5
      · rw [t5]; exact i6
      · intro x y hb hv
        simp only [t1]
        exact i9 x y hb hv
    · refine ⟨_, _,
        call_of_ok a g sv u e _ _ (redraw_icon_same_day_exposed a u e g (Or.inl hrc) hd hu),
        hd.symm, Or.inr ⟨i1, i2, ?_, ?_, ?_, ?_, i7, i8, iflags, ?_⟩⟩
      · rw [execs_append, execs_draw_window]
      · rw [execs_append, execs_draw_window]
      · rw [execs_append, execs_draw_window]
      · rw [execs_append, execs_draw_window]
        simp only [t5]
        exact i6
      · intro x y hb hv
        rw [execs_append, execs_draw_window]
        simp only [t1]
        exact i9 x y hb hv
  · obtain ⟨r1, r2, r3, r4, r5⟩ := execs_rebuild a (Server.execs a sv (title_requests e g))
      e.tm.tm_mday (icon_hints g.hints) hlo hhi
    refine ⟨_, _, call_of_ok a g sv u e _ _ (redraw_icon_new_day a u e g (Or.inl hrc) hd),
      rfl, Or.inr ⟨hlo, hhi, ?_, ?_, ?_, ?_, rfl, rfl, rfl, ?_⟩⟩
    · rw [execs_append, execs_draw_window]
    · rw [execs_append, execs_draw_window]
    · rw [execs_append, execs_draw_window]
    · rw [execs_append, execs_draw_window, execs_append]
      exact r4
    · intro x y hb hv
      rw [execs_append, execs_draw_window, execs_append]
      simp only
      rw [r5 x y]
      rcases hinv with h | h
      · have hc : clip_allows a (Server.execs a sv (title_requests e g)) x y = true :=
          clip_allows_unclipped a _ x y (by rw [t2]; exact h.2)
        simp [hb, hc]
      · obtain ⟨_, _, i3, i4, i5, _, _, _, _, i9⟩ := h
        have hc : clip_allows a (Server.execs a sv (title_requests e g)) x y = mask_bit a x y :=
          clip_allows_shape a _ x y (by rw [t2]; exact i3) (by rw [t3]; exact i4)
            (by rw [t4]; exact i5) hb
        by_cases hm : mask_bit a x y = true
        · simp [hb, hc, hm]
        · have hg : ¬ in_glyph_area a x y := by
            rcases hv with h1 | h1
            · exact absurd h1 hm
            · exact h1
          have hcf : ¬ (in_bounds a.calendar_pm_attrs x y ∧
              clip_allows a (Server.execs a sv (title_requests e g)) x y = true) := by
            rw [hc]
            exact fun h2 => hm h2.2
          rw [if_neg hcf, t1, i9 x y hb (Or.inr hg), calendar_outside_glyphs a _ x y hg,
            calendar_outside_glyphs a _ x y hg]

theorem calls_icon_inv (a : Assets) (cs : List (Int × Env)) :
    ∀ (g : Globals) (sv : Server),
      (∀ c ∈ cs, 1 ≤ c.2.tm.tm_mday ∧ c.2.tm.tm_mday ≤ 31 ∧ c.2.text_prop_rc ≠ 0) →
      icon_inv a g sv →
      ∃ g1 sv1, calls a (g, sv) cs = Except.ok (g1, sv1) ∧ icon_inv a g1 sv1 := by
  induction cs with
  | nil =>
    intro g sv _ hinv
    exact ⟨g, sv, rfl, hinv⟩
  | cons c cs ih =>
    intro g sv hall hinv
    obtain ⟨hlo, hhi, hrc⟩ := hall c (by simp)
    obtain ⟨g1, sv1, hcall, _, hinv1⟩ := call_icon_inv a g sv c.1 c.2 hlo hhi hrc hinv
    obtain ⟨g2, sv2, hcalls, hinv2⟩ :=
      ih g1 sv1 (fun c2 hc2 => hall c2 (by simp [hc2])) hinv1
    refine ⟨g2, sv2, ?_, hinv2⟩
    have : call a (g, sv) c = Except.ok (g1, sv1) := hcall
    simp only [calls, this]
    exact hcalls

/-- After a sequence of calls from the initial state, with days in `1..31`,
every call has returned and the invariant `icon_inv` holds with `last_day`
the day of the last call. -/
theorem calls_from_init (a : Assets) (icon0 : Int → Int → Nat)
    (pre : List (Int × Env)) (c : Int × Env)
    (hall : ∀ c1 ∈ pre ++ [c],
      1 ≤ c1.2.tm.tm_mday ∧ c1.2.tm.tm_mday ≤ 31 ∧ c1.2.text_prop_rc ≠ 0) :
    ∃ g sv, calls a (Globals.init, Server.init icon0) (pre ++ [c]) = Except.ok (g, sv) ∧
      g.last_day = c.2.tm.tm_mday ∧ icon_inv a g sv := by
  have hinit : icon_inv a Globals.init (Server.init icon0) := Or.inl ⟨rfl, rfl⟩
  obtain ⟨g1, sv1, hpre, hinv1⟩ :=
    calls_icon_inv a pre Globals.init (Server.init icon0)
      (fun c1 h1 => hall c1 (by simp [h1])) hinit
  obtain ⟨hlo, hhi, hrc⟩ := hall c (by simp)
  obtain ⟨g2, sv2, hcall, hday, hinv2⟩ := call_icon_inv a g1 sv1 c.1 c.2 hlo hhi hrc hinv1
  refine ⟨g2, sv2, ?_, hday, hinv2⟩
  rw [calls_append a pre [c] _ _ hpre]
  have : call a (g1, sv1) c = Except.ok (g2, sv2) := hcall
  simp [calls, this]

end Xcalicon
